import Mathlib

/-!
Shallow embedding of the room view synchronization logic of the bill
splitter frontend (src/frontend/src/pages/Room.tsx, the second room view
variant, which carries the presence handlers and the optimistic insert).
Timestamps are modelled as natural numbers (the code compares ISO strings
through Date.getTime); the JavaScript falsy fallback on strings is made
explicit through jsOrStr and jsOrOpt. Asynchronous completions (fetch
results, the upload result) are passed in as explicit Except values; the
toast calls and navigation calls are recorded in the result records. The
room menu is display-only metadata (summed for the bill total) and is out
of scope here, so RoomInfo carries only the title.
-/

namespace BillSplitter

/-- Canonical message shape kept in the messages state of the room view. -/
structure Message where
  id : String
  senderName : String
  text : Option String
  proofUrl : Option String
  createdAt : Nat
  roomId : Option String
deriving DecidableEq

/-- Raw history record as returned by GET messages, before normalization:
senderName may be missing, the sender object may carry the name instead
(msg.sender?.name), the attachment url may arrive as proofUrl or fileUrl,
and createdAt may be missing. -/
structure RawMessage where
  id : String
  senderName : Option String
  senderNestedName : Option String
  text : Option String
  proofUrl : Option String
  fileUrl : Option String
  createdAt : Option Nat
deriving DecidableEq

/-- JavaScript String.prototype.trim, modelled over the character list:
drop leading and trailing whitespace. -/
def jsTrim (s : String) : String :=
  String.mk
    (((s.data.dropWhile Char.isWhitespace).reverse.dropWhile
        Char.isWhitespace).reverse)

/-- JavaScript a || d for a string default: an absent or empty string falls
through to the default. -/
def jsOrStr : Option String → String → String
  | some s, d => if s = "" then d else s
  | none, d => d

/-- JavaScript a || b on two optional strings: an absent or empty left side
falls through to the right side. -/
def jsOrOpt : Option String → Option String → Option String
  | some s, b => if s = "" then b else some s
  | none, b => b

/-- Normalization applied to each history record in fetchMessages:
senderName falls back from msg.senderName to msg.sender?.name to
"Unknown", the attachment url from msg.proofUrl to msg.fileUrl, and a
missing createdAt is replaced by the current time. -/
def normalizeMessage (now : Nat) (msg : RawMessage) : Message :=
  { id := msg.id
    senderName := jsOrStr (jsOrOpt msg.senderName msg.senderNestedName) "Unknown"
    text := msg.text
    proofUrl := jsOrOpt msg.proofUrl msg.fileUrl
    createdAt := msg.createdAt.getD now
    roomId := none }

/-- Comparison used by the history sort: ascending createdAt (the code
sorts by the difference of the Date.getTime values). -/
def byCreatedAt (a b : Message) : Prop :=
  a.createdAt ≤ b.createdAt

instance : DecidableRel byCreatedAt :=
  fun a b => Nat.decLe a.createdAt b.createdAt

instance : IsTotal Message byCreatedAt :=
  ⟨fun a b => Nat.le_total a.createdAt b.createdAt⟩

instance : IsTrans Message byCreatedAt :=
  ⟨fun _ _ _ => Nat.le_trans⟩

/-- fetchMessages of the second room view variant: normalize every record,
then sort ascending by createdAt. The sort is modelled by insertion sort;
no claim depends on the order of entries with equal timestamps. -/
def fetchMessages (now : Nat) (raws : List RawMessage) : List Message :=
  List.insertionSort byCreatedAt (raws.map (normalizeMessage now))

/-- Handler of the receiveMessage socket event: a message whose senderName
equals the local display name is skipped; otherwise the message is appended
unless an entry with the same id is already in the log. -/
def receiveMessageHandler (displayName : String) (msg : Message)
    (prev : List Message) : List Message :=
  if msg.senderName = displayName then prev
  else if prev.any (fun m => m.id == msg.id) then prev
  else prev ++ [msg]

/-- Handler of the receiveProof socket event: the proof message is appended
unless an entry with the same id is already in the log. -/
def receiveProofHandler (proof : Message) (prev : List Message) : List Message :=
  if prev.any (fun m => m.id == proof.id) then prev
  else prev ++ [proof]

/-- Outbound socket commands emitted by the send paths. -/
inductive ChannelCommand where
  | sendMessage (msg : Message)
  | sendProof (msg : Message)
deriving DecidableEq

/-- Result of the text branch of handleSend: the new messages state, the
emitted socket commands, and the input field content afterwards. -/
structure SendTextResult where
  messages : List Message
  commands : List ChannelCommand
  input : String
deriving DecidableEq

/-- Text branch of handleSend: when the trimmed input is non-empty, build a
message with a fresh id, the local display name, the trimmed text and the
current time, append it to the log first (optimistic insert), then emit
sendMessage and clear the input. Otherwise nothing happens. -/
def handleSendText (displayName roomId freshId : String) (now : Nat)
    (input : String) (prev : List Message) : SendTextResult :=
  if jsTrim input = "" then
    { messages := prev, commands := [], input := input }
  else
    { messages := prev ++
        [{ id := freshId, senderName := displayName, text := some (jsTrim input),
           proofUrl := none, createdAt := now, roomId := some roomId }]
      commands := [ChannelCommand.sendMessage
        { id := freshId, senderName := displayName, text := some (jsTrim input),
          proofUrl := none, createdAt := now, roomId := some roomId }]
      input := "" }

/-- Attachment descriptor returned by the upload endpoint on success. -/
structure ProofDescriptor where
  id : String
  fileUrl : String
  createdAt : Nat
deriving DecidableEq

/-- Result of the file branch of handleSend: the new messages state, the
emitted socket commands, the toasts shown, and whether the selected file
was cleared. -/
structure SendFileResult where
  messages : List Message
  commands : List ChannelCommand
  toasts : List String
  fileCleared : Bool
deriving DecidableEq

/-- File branch of handleSend: on upload success, build the proof message
from the server descriptor, emit sendProof, append the message unless its
id is already present, clear the file and toast success. On upload failure
the catch block only toasts the error. -/
def handleSendFile (displayName roomId : String)
    (upload : Except String ProofDescriptor)
    (prev : List Message) : SendFileResult :=
  match upload with
  | Except.error e =>
      { messages := prev, commands := [],
        toasts := ["Error sending file: " ++ e], fileCleared := false }
  | Except.ok d =>
      { messages :=
          if prev.any (fun m => m.id == d.id) then prev
          else prev ++
            [{ id := d.id, senderName := displayName, text := none,
               proofUrl := some d.fileUrl, createdAt := d.createdAt,
               roomId := some roomId }]
        commands := [ChannelCommand.sendProof
          { id := d.id, senderName := displayName, text := none,
            proofUrl := some d.fileUrl, createdAt := d.createdAt,
            roomId := some roomId }]
        toasts := ["File sent!"]
        fileCleared := true }

/-- Presence state of the room view: the online users list and the toasts
shown so far. -/
structure PresenceState where
  onlineUsers : List String
  toasts : List String
deriving DecidableEq

/-- Handler of the userList socket event: replace the online users list
with the received names minus the local display name. -/
def userListHandler (displayName : String) (users : List String)
    (st : PresenceState) : PresenceState :=
  { st with onlineUsers := users.filter (fun u => u != displayName) }

/-- Handler of the userJoined socket event: toast a join notification
unless the name equals the local display name; the online users list is
not touched. -/
def userJoinedHandler (displayName joined : String)
    (st : PresenceState) : PresenceState :=
  if joined != displayName then
    { st with toasts := st.toasts ++ [joined ++ " joined the room"] }
  else st

/-- Handler of the userLeft socket event: toast a leave notification unless
the name equals the local display name; the online users list is not
touched. -/
def userLeftHandler (displayName left : String)
    (st : PresenceState) : PresenceState :=
  if left != displayName then
    { st with toasts := st.toasts ++ [left ++ " left the room"] }
  else st

/-- Room metadata used by the room view header. The menu is display-only
and out of scope. -/
structure RoomInfo where
  title : String
deriving DecidableEq

/-- Observable outcome of entering a room: the title shown, the initial
messages state, the toasts shown, and where the view navigated to. -/
structure EntryOutcome where
  roomTitle : String
  messages : List Message
  toasts : List String
  navigation : Option String
deriving DecidableEq

/-- Room entry effect of the second room view variant: with no stored
token, toast Unauthorized and navigate to the login page. Otherwise
fetchRoom sets the title on success and on any failure toasts the error
and navigates back to the rooms list, while fetchMessages fills the log on
success and on any failure only logs to the console, leaving the log
empty with no toast and no navigation. -/
def roomEntry (now : Nat) (token : Option String)
    (roomResp : Except String RoomInfo)
    (msgResp : Except String (List RawMessage)) : EntryOutcome :=
  match token with
  | none =>
      { roomTitle := "", messages := [], toasts := ["Unauthorized"],
        navigation := some "/login" }
  | some _ =>
      let msgs : List Message :=
        match msgResp with
        | Except.ok raws => fetchMessages now raws
        | Except.error _ => []
      match roomResp with
      | Except.ok info =>
          { roomTitle := info.title, messages := msgs, toasts := [],
            navigation := none }
      | Except.error e =>
          { roomTitle := "", messages := msgs,
            toasts := ["Error: " ++ e], navigation := some "/rooms" }

/-- Ids of the entries of a message log, in order. -/
def idsOf (log : List Message) : List String :=
  log.map (fun m => m.id)

/-- One event applied to the messages state: a history load completion, an
inbound socket message or proof, a local text send, or a local file send
with its upload result. -/
inductive StoreEvent where
  | loadHistory (now : Nat) (history : List RawMessage)
  | inboundMessage (msg : Message)
  | inboundProof (msg : Message)
  | sendText (freshId : String) (now : Nat) (input : String)
  | sendFileOk (d : ProofDescriptor)
  | sendFileErr (e : String)

/-- Effect of one event on the messages state, dispatching to the handler
the room view installs for it. -/
def storeStep (displayName roomId : String) (log : List Message) :
    StoreEvent → List Message
  | StoreEvent.loadHistory now history => fetchMessages now history
  | StoreEvent.inboundMessage msg => receiveMessageHandler displayName msg log
  | StoreEvent.inboundProof msg => receiveProofHandler msg log
  | StoreEvent.sendText freshId now input =>
      (handleSendText displayName roomId freshId now input log).messages
  | StoreEvent.sendFileOk d =>
      (handleSendFile displayName roomId (Except.ok d) log).messages
  | StoreEvent.sendFileErr e =>
      (handleSendFile displayName roomId (Except.error e) log).messages

/-- Messages state after a whole sequence of events. -/
def runStore (displayName roomId : String) (log : List Message) :
    List StoreEvent → List Message
  | [] => log
  | e :: es => runStore displayName roomId (storeStep displayName roomId log e) es

/-- Environment assumptions along a trace, checked against the evolving
state: every history load delivers records with pairwise distinct ids
(server-assigned unique ids), and every local text send uses an id that is
fresh for the current log (crypto.randomUUID). Inbound events and file
sends need no assumption. -/
def traceOkB (displayName roomId : String) :
    List Message → List StoreEvent → Bool
  | _, [] => true
  | log, e :: es =>
      (match e with
       | StoreEvent.loadHistory _ history =>
           decide ((history.map (fun r => r.id)).Nodup)
       | StoreEvent.sendText freshId _ _ =>
           !(decide (freshId ∈ idsOf log))
       | _ => true)
      && traceOkB displayName roomId (storeStep displayName roomId log e) es

/-- Ids distribute over log concatenation. -/
theorem idsOf_append (l1 l2 : List Message) :
    idsOf (l1 ++ l2) = idsOf l1 ++ idsOf l2 := by
  simp [idsOf]

/-- An id is in the id list of a log exactly when some entry carries it. -/
theorem mem_idsOf {i : String} {log : List Message} :
    i ∈ idsOf log ↔ ∃ m ∈ log, m.id = i := by
  simp [idsOf]

/-- When the duplicate scan comes back false, the id is absent from the log. -/
theorem not_mem_idsOf_of_any_eq_false {prev : List Message} {i : String}
    (h : prev.any (fun m => m.id == i) = false) : i ∉ idsOf prev := by
  intro hmem
  rcases mem_idsOf.mp hmem with ⟨m, hm, hid⟩
  have htrue : prev.any (fun m => m.id == i) = true :=
    List.any_eq_true.mpr ⟨m, hm, by simp [hid]⟩
  rw [htrue] at h
  cases h

/-- When the id is present in the log, the duplicate scan comes back true. -/
theorem any_eq_true_of_mem_idsOf {prev : List Message} {i : String}
    (h : i ∈ idsOf prev) : prev.any (fun m => m.id == i) = true := by
  rcases mem_idsOf.mp h with ⟨m, hm, hid⟩
  exact List.any_eq_true.mpr ⟨m, hm, by simp [hid]⟩

/-- When the duplicate scan comes back true, the id is present in the log. -/
theorem mem_idsOf_of_any_eq_true {prev : List Message} {i : String}
    (h : prev.any (fun m => m.id == i) = true) : i ∈ idsOf prev := by
  rcases List.any_eq_true.mp h with ⟨m, hm, he⟩
  exact mem_idsOf.mpr ⟨m, hm, by simpa using he⟩

/-- Appending an entry with a new id keeps the id list duplicate-free. -/
theorem nodup_idsOf_append {prev : List Message} {msg : Message}
    (h : (idsOf prev).Nodup) (hmem : msg.id ∉ idsOf prev) :
    (idsOf (prev ++ [msg])).Nodup := by
  rw [idsOf_append, List.nodup_append]
  refine ⟨h, List.nodup_singleton _, ?_⟩
  intro a ha hb
  have hab : a = msg.id := by simpa [idsOf] using hb
  exact hmem (hab ▸ ha)

/-- The receiveMessage handler keeps the id list duplicate-free. -/
theorem nodup_receiveMessage {displayName : String} {msg : Message}
    {prev : List Message} (h : (idsOf prev).Nodup) :
    (idsOf (receiveMessageHandler displayName msg prev)).Nodup := by
  unfold receiveMessageHandler
  split
  · exact h
  · split
    · exact h
    · rename_i hany
      exact nodup_idsOf_append h
        (not_mem_idsOf_of_any_eq_false (Bool.not_eq_true _ ▸ hany))

/-- The receiveProof handler keeps the id list duplicate-free. -/
theorem nodup_receiveProof {msg : Message} {prev : List Message}
    (h : (idsOf prev).Nodup) :
    (idsOf (receiveProofHandler msg prev)).Nodup := by
  unfold receiveProofHandler
  split
  · exact h
  · rename_i hany
    exact nodup_idsOf_append h
      (not_mem_idsOf_of_any_eq_false (Bool.not_eq_true _ ▸ hany))

/-- Normalization does not change the id of a record. -/
theorem idsOf_fetchMessages_perm (now : Nat) (raws : List RawMessage) :
    (idsOf (fetchMessages now raws)).Perm (raws.map (fun r => r.id)) := by
  have hperm := List.perm_insertionSort byCreatedAt (raws.map (normalizeMessage now))
  have h2 := hperm.map (fun m : Message => m.id)
  have h3 : (raws.map (normalizeMessage now)).map (fun m : Message => m.id)
      = raws.map (fun r => r.id) := by
    rw [List.map_map]
    rfl
  rw [h3] at h2
  exact h2

/-- A history load with pairwise distinct record ids yields a log with a
duplicate-free id list. -/
theorem nodup_fetchMessages {now : Nat} {raws : List RawMessage}
    (h : (raws.map (fun r => r.id)).Nodup) :
    (idsOf (fetchMessages now raws)).Nodup :=
  (idsOf_fetchMessages_perm now raws).symm.nodup h

/-- The text send path with a fresh id keeps the id list duplicate-free. -/
theorem nodup_sendText {displayName roomId freshId : String} {now : Nat}
    {input : String} {prev : List Message}
    (h : (idsOf prev).Nodup) (hfresh : freshId ∉ idsOf prev) :
    (idsOf (handleSendText displayName roomId freshId now input prev).messages).Nodup := by
  unfold handleSendText
  split
  · exact h
  · exact nodup_idsOf_append h hfresh

/-- The file send path keeps the id list duplicate-free: it checks the id
before appending. -/
theorem nodup_sendFileOk {displayName roomId : String} {d : ProofDescriptor}
    {prev : List Message} (h : (idsOf prev).Nodup) :
    (idsOf (handleSendFile displayName roomId (Except.ok d) prev).messages).Nodup := by
  unfold handleSendFile
  simp only
  split
  · exact h
  · rename_i hany
    exact nodup_idsOf_append h
      (not_mem_idsOf_of_any_eq_false (Bool.not_eq_true _ ▸ hany))

/-- C1: for every sequence of history loads (initialize), inbound
receiveMessage and receiveProof events, and local sends (optimistic
inserts included), starting from a log with duplicate-free ids, the
resulting visible message log never contains two entries with equal id —
given that every history load delivers records with pairwise distinct ids
and every local text send uses an id that is fresh for the current log,
which is what the server contract and crypto.randomUUID provide. -/
theorem dedup_invariant (displayName roomId : String) (log : List Message)
    (events : List StoreEvent)
    (hlog : (idsOf log).Nodup)
    (hok : traceOkB displayName roomId log events = true) :
    (idsOf (runStore displayName roomId log events)).Nodup := by
  induction events generalizing log with
  | nil => simpa [runStore] using hlog
  | cons e es ih =>
      rw [runStore]
      cases e with
      | loadHistory now history =>
          simp only [traceOkB, Bool.and_eq_true] at hok
          exact ih _ (nodup_fetchMessages (of_decide_eq_true hok.1)) hok.2
      | inboundMessage msg =>
          simp only [traceOkB, Bool.and_eq_true, true_and] at hok
          exact ih _ (nodup_receiveMessage hlog) hok
      | inboundProof msg =>
          simp only [traceOkB, Bool.and_eq_true, true_and] at hok
          exact ih _ (nodup_receiveProof hlog) hok
      | sendText freshId now input =>
          simp only [traceOkB, Bool.and_eq_true] at hok
          refine ih _ (nodup_sendText hlog ?_) hok.2
          have h1 := hok.1
          rw [Bool.not_eq_true'] at h1
          exact of_decide_eq_false h1
      | sendFileOk d =>
          simp only [traceOkB, Bool.and_eq_true, true_and] at hok
          exact ih _ (nodup_sendFileOk hlog) hok
      | sendFileErr e =>
          simp only [traceOkB, Bool.and_eq_true, true_and] at hok
          exact ih _ hlog hok

/-- Witness for C1: a concrete trace of a history load, a local optimistic
send, the echo of that send, a proof arriving twice, and a failed upload
keeps the id list duplicate-free. -/
theorem dedup_invariant_witness :
    (idsOf (runStore "You" "r1" []
      [StoreEvent.loadHistory 10
        [{ id := "m1", senderName := some "Bob", senderNestedName := none,
           text := some "hi", proofUrl := none, fileUrl := none,
           createdAt := some 3 },
         { id := "m0", senderName := none, senderNestedName := some "Ann",
           text := some "yo", proofUrl := none, fileUrl := some "f0",
           createdAt := some 1 }],
       StoreEvent.sendText "m2" 11 "hello",
       StoreEvent.inboundMessage
         { id := "m2", senderName := "You", text := some "hello",
           proofUrl := none, createdAt := 11, roomId := some "r1" },
       StoreEvent.inboundProof
         { id := "p1", senderName := "Bob", text := none,
           proofUrl := some "u1", createdAt := 12, roomId := some "r1" },
       StoreEvent.inboundProof
         { id := "p1", senderName := "Bob", text := none,
           proofUrl := some "u1", createdAt := 12, roomId := some "r1" },
       StoreEvent.sendFileErr "boom"])).Nodup :=
  dedup_invariant "You" "r1" [] _ (by decide) (by decide)

/-- C5 counterexample: the empty log does not contain the id x1, yet the
receiveMessage handler drops an incoming message with id x1 whose
senderName equals the local display name, so the log stays at length 0
instead of growing to length 1. -/
theorem live_append_counterexample :
    "x1" ∉ idsOf ([] : List Message)
    ∧ receiveMessageHandler "You"
        { id := "x1", senderName := "You", text := some "hi",
          proofUrl := none, createdAt := 99, roomId := none } [] = [] := by
  constructor
  · simp [idsOf]
  · rfl

/-- C5 amended: a live receiveMessage event whose id is not in the log and
whose senderName differs from the local display name is appended at the
tail, for any createdAt value. -/
theorem live_append (displayName : String) (msg : Message) (log : List Message)
    (hname : msg.senderName ≠ displayName) (hid : msg.id ∉ idsOf log) :
    receiveMessageHandler displayName msg log = log ++ [msg] := by
  unfold receiveMessageHandler
  rw [if_neg hname, if_neg (fun hany => hid (mem_idsOf_of_any_eq_true hany))]

/-- Witness for the amended C5: a message from Bob with a new id and a
timestamp far before the log tail is still appended at the end. -/
theorem live_append_witness :
    receiveMessageHandler "You"
      { id := "n2", senderName := "Bob", text := some "old",
        proofUrl := none, createdAt := 1, roomId := none }
      [{ id := "n1", senderName := "You", text := some "new",
         proofUrl := none, createdAt := 50, roomId := none }]
    = [{ id := "n1", senderName := "You", text := some "new",
         proofUrl := none, createdAt := 50, roomId := none }]
      ++ [{ id := "n2", senderName := "Bob", text := some "old",
            proofUrl := none, createdAt := 1, roomId := none }] :=
  live_append "You" _ _ (by decide) (by decide)

/-- C6: when the upload request fails, the file send path leaves the
message log unchanged, emits no socket command, and surfaces the failure
through an error toast. -/
theorem upload_failure_no_insert (displayName roomId e : String)
    (prev : List Message) :
    (handleSendFile displayName roomId (Except.error e) prev).messages = prev
    ∧ (handleSendFile displayName roomId (Except.error e) prev).commands = []
    ∧ (handleSendFile displayName roomId (Except.error e) prev).toasts
        = ["Error sending file: " ++ e] :=
  ⟨rfl, rfl, rfl⟩

/-- C7 counterexample: a userJoined event for Alice leaves the online
users list empty — the handler only toasts a notification, it does not
add the name to the PresenceSet as the claim states. -/
theorem presence_counterexample :
    (userJoinedHandler "You" "Alice"
      { onlineUsers := [], toasts := [] }).onlineUsers = []
    ∧ "Alice" ∉ (userJoinedHandler "You" "Alice"
      { onlineUsers := [], toasts := [] }).onlineUsers := by
  constructor
  · rfl
  · intro h
    simp [userJoinedHandler] at h

/-- C7 amended: userList replaces the online users list wholesale with the
received names minus the local display name; userJoined and userLeft with
a non-local name never add to or remove from the list — they only append a
one-shot notification toast. -/
theorem presence_mutations (displayName joined left : String)
    (users : List String) (st : PresenceState)
    (hj : joined ≠ displayName) (hl : left ≠ displayName) :
    (userListHandler displayName users st).onlineUsers
      = users.filter (fun u => u != displayName)
    ∧ (userListHandler displayName users st).toasts = st.toasts
    ∧ (userJoinedHandler displayName joined st).onlineUsers = st.onlineUsers
    ∧ (userLeftHandler displayName left st).onlineUsers = st.onlineUsers
    ∧ (userJoinedHandler displayName joined st).toasts
        = st.toasts ++ [joined ++ " joined the room"]
    ∧ (userLeftHandler displayName left st).toasts
        = st.toasts ++ [left ++ " left the room"] := by
  have hjb : (joined != displayName) = true := by
    simpa using hj
  have hlb : (left != displayName) = true := by
    simpa using hl
  refine ⟨rfl, rfl, ?_, ?_, ?_, ?_⟩
  · unfold userJoinedHandler
    split <;> rfl
  · unfold userLeftHandler
    split <;> rfl
  · unfold userJoinedHandler
    rw [if_pos hjb]
  · unfold userLeftHandler
    rw [if_pos hlb]

/-- Witness for the amended C7: concrete presence events for Alice and Bob
against a room where Carol is online. -/
theorem presence_mutations_witness :
    (userListHandler "You" ["You", "Carol"]
        { onlineUsers := ["Carol"], toasts := [] }).onlineUsers
      = ["You", "Carol"].filter (fun u => u != "You")
    ∧ (userListHandler "You" ["You", "Carol"]
        { onlineUsers := ["Carol"], toasts := [] }).toasts = []
    ∧ (userJoinedHandler "You" "Alice"
        { onlineUsers := ["Carol"], toasts := [] }).onlineUsers = ["Carol"]
    ∧ (userLeftHandler "You" "Bob"
        { onlineUsers := ["Carol"], toasts := [] }).onlineUsers = ["Carol"]
    ∧ (userJoinedHandler "You" "Alice"
        { onlineUsers := ["Carol"], toasts := [] }).toasts
        = [] ++ ["Alice" ++ " joined the room"]
    ∧ (userLeftHandler "You" "Bob"
        { onlineUsers := ["Carol"], toasts := [] }).toasts
        = [] ++ ["Bob" ++ " left the room"] :=
  presence_mutations "You" "Alice" "Bob" ["You", "Carol"]
    { onlineUsers := ["Carol"], toasts := [] } (by decide) (by decide)

/-- C10: an inbound receiveMessage event whose senderName equals the local
display name is discarded and the log is left unchanged, whatever its id. -/
theorem self_name_discarded (displayName : String) (msg : Message)
    (log : List Message) (h : msg.senderName = displayName) :
    receiveMessageHandler displayName msg log = log := by
  unfold receiveMessageHandler
  rw [if_pos h]

/-- Witness for C10: a message with a brand new id but the local display
name is dropped from an empty log. -/
theorem self_name_discarded_witness :
    receiveMessageHandler "You"
      { id := "z9", senderName := "You", text := some "hello",
        proofUrl := none, createdAt := 7, roomId := none } [] = [] :=
  self_name_discarded "You" _ [] rfl

/-- C2: after an optimistic local text send with a fresh id, a
receiveMessage event carrying the same id leaves the log unchanged, and
the log holds exactly one entry with that id. -/
theorem self_echo_suppression (displayName roomId freshId : String)
    (now : Nat) (input : String) (prev : List Message) (echo : Message)
    (hinput : jsTrim input ≠ "") (hfresh : freshId ∉ idsOf prev)
    (hecho : echo.id = freshId) :
    receiveMessageHandler displayName echo
        (handleSendText displayName roomId freshId now input prev).messages
      = (handleSendText displayName roomId freshId now input prev).messages
    ∧ List.countP (fun m => m.id == freshId)
        (handleSendText displayName roomId freshId now input prev).messages = 1 := by
  have hmsgs : (handleSendText displayName roomId freshId now input prev).messages
      = prev ++
        [{ id := freshId, senderName := displayName, text := some (jsTrim input),
           proofUrl := none, createdAt := now, roomId := some roomId }] := by
    unfold handleSendText
    rw [if_neg hinput]
  constructor
  · rw [hmsgs]
    unfold receiveMessageHandler
    split
    · rfl
    · rw [if_pos]
      apply any_eq_true_of_mem_idsOf
      rw [hecho, idsOf_append]
      apply List.mem_append_right
      simp [idsOf]
  · rw [hmsgs, List.countP_append, List.countP_singleton]
    have hzero : List.countP (fun m => m.id == freshId) prev = 0 := by
      rw [List.countP_eq_zero]
      intro m hm hbeq
      exact hfresh (mem_idsOf.mpr ⟨m, hm, by simpa using hbeq⟩)
    simp [hzero]

/-- Witness for C2, the scenario of the spec: history holds m1, the local
user sends m2 optimistically, the channel echoes m2 — the final log is the
two entries and the echo changes nothing. -/
theorem self_echo_suppression_witness :
    receiveMessageHandler "You"
        { id := "m2", senderName := "You", text := some "yo",
          proofUrl := none, createdAt := 5, roomId := some "r1" }
        (handleSendText "You" "r1" "m2" 5 "yo"
          [{ id := "m1", senderName := "Bob", text := some "hi",
             proofUrl := none, createdAt := 0, roomId := none }]).messages
      = (handleSendText "You" "r1" "m2" 5 "yo"
          [{ id := "m1", senderName := "Bob", text := some "hi",
             proofUrl := none, createdAt := 0, roomId := none }]).messages
    ∧ List.countP (fun m => m.id == "m2")
        (handleSendText "You" "r1" "m2" 5 "yo"
          [{ id := "m1", senderName := "Bob", text := some "hi",
             proofUrl := none, createdAt := 0, roomId := none }]).messages = 1 :=
  self_echo_suppression "You" "r1" "m2" 5 "yo"
    [{ id := "m1", senderName := "Bob", text := some "hi",
       proofUrl := none, createdAt := 0, roomId := none }]
    { id := "m2", senderName := "You", text := some "yo",
      proofUrl := none, createdAt := 5, roomId := some "r1" }
    (by decide) (by decide) rfl

/-- C3 counterexample: a single space is a non-empty input string, yet the
text send path appends nothing to the log and emits no command, because
the code guards on the trimmed input. -/
theorem send_text_counterexample :
    (" " ≠ "")
    ∧ (handleSendText "You" "r1" "u1" 5 " " []).messages = []
    ∧ (handleSendText "You" "r1" "u1" 5 " " []).commands = [] := by
  refine ⟨by decide, by decide, by decide⟩

/-- C3 amended: for every input whose trimmed content is non-empty, the
text send path builds a message carrying the fresh id, the local sender
name, the trimmed text and the current timestamp, appends it to the log
immediately, emits exactly the sendMessage command with that message, and
clears the input field; the fresh id does not occur among the previous
entries. -/
theorem send_text_appends (displayName roomId freshId : String) (now : Nat)
    (input : String) (prev : List Message)
    (hne : jsTrim input ≠ "") (hfresh : freshId ∉ idsOf prev) :
    (handleSendText displayName roomId freshId now input prev).messages
      = prev ++
        [{ id := freshId, senderName := displayName, text := some (jsTrim input),
           proofUrl := none, createdAt := now, roomId := some roomId }]
    ∧ (handleSendText displayName roomId freshId now input prev).commands
      = [ChannelCommand.sendMessage
          { id := freshId, senderName := displayName, text := some (jsTrim input),
            proofUrl := none, createdAt := now, roomId := some roomId }]
    ∧ freshId ∉ idsOf prev
    ∧ (handleSendText displayName roomId freshId now input prev).input = "" := by
  unfold handleSendText
  rw [if_neg hne]
  exact ⟨rfl, rfl, hfresh, rfl⟩

/-- Witness for the amended C3: sending yo into an empty log appends the
message and emits the matching sendMessage command. -/
theorem send_text_appends_witness :
    (handleSendText "You" "r1" "m2" 5 "yo" []).messages
      = [] ++
        [{ id := "m2", senderName := "You", text := some (jsTrim "yo"),
           proofUrl := none, createdAt := 5, roomId := some "r1" }]
    ∧ (handleSendText "You" "r1" "m2" 5 "yo" []).commands
      = [ChannelCommand.sendMessage
          { id := "m2", senderName := "You", text := some (jsTrim "yo"),
            proofUrl := none, createdAt := 5, roomId := some "r1" }]
    ∧ "m2" ∉ idsOf []
    ∧ (handleSendText "You" "r1" "m2" 5 "yo" []).input = "" :=
  send_text_appends "You" "r1" "m2" 5 "yo" [] (by decide) (by decide)

/-- C4: for every list of history records, in any arrival order, the
history load produces a log that is pairwise ascending in createdAt and is
a permutation of the normalized records. -/
theorem history_load_sorted (now : Nat) (raws : List RawMessage) :
    List.Pairwise (fun a b : Message => a.createdAt ≤ b.createdAt)
        (fetchMessages now raws)
    ∧ (fetchMessages now raws).Perm (raws.map (normalizeMessage now)) :=
  ⟨List.sorted_insertionSort byCreatedAt (raws.map (normalizeMessage now)),
   List.perm_insertionSort byCreatedAt (raws.map (normalizeMessage now))⟩

/-- C8 counterexample: with a stored token and a healthy room fetch, a
transport failure of the history fetch produces no toast and no
navigation — the room view swallows the error and shows an empty log,
instead of surfacing a retryable notice and aborting room entry. -/
theorem entry_error_counterexample :
    (roomEntry 0 (some "tok") (Except.ok { title := "T" })
        (Except.error "network")).toasts = []
    ∧ (roomEntry 0 (some "tok") (Except.ok { title := "T" })
        (Except.error "network")).navigation = none
    ∧ (roomEntry 0 (some "tok") (Except.ok { title := "T" })
        (Except.error "network")).messages = [] :=
  ⟨rfl, rfl, rfl⟩

/-- C8 amended: a missing credential toasts Unauthorized and navigates to
the login page; any failure of the room metadata fetch (not found, invalid
credential and transport failures are not distinguished) toasts the error
and navigates back to the rooms list; a failure of the message history
fetch is swallowed silently, with no toast, no navigation and an empty
log. -/
theorem entry_error_handling (now : Nat) (tok e e2 : String)
    (info : RoomInfo) (roomResp : Except String RoomInfo)
    (msgResp : Except String (List RawMessage)) :
    (roomEntry now none roomResp msgResp).toasts = ["Unauthorized"]
    ∧ (roomEntry now none roomResp msgResp).navigation = some "/login"
    ∧ (roomEntry now (some tok) (Except.error e) msgResp).toasts
        = ["Error: " ++ e]
    ∧ (roomEntry now (some tok) (Except.error e) msgResp).navigation
        = some "/rooms"
    ∧ (roomEntry now (some tok) (Except.ok info) (Except.error e2)).toasts = []
    ∧ (roomEntry now (some tok) (Except.ok info) (Except.error e2)).navigation
        = none
    ∧ (roomEntry now (some tok) (Except.ok info) (Except.error e2)).messages
        = [] :=
  ⟨rfl, rfl, rfl, rfl, rfl, rfl, rfl⟩

/-- C9: the history normalization takes the attachment url from proofUrl
with fileUrl as fallback, lets the sender name fall back from senderName
to the nested sender name to Unknown, replaces a missing createdAt with
the current time, and keeps the id. -/
theorem normalize_contract (now : Nat) (raw : RawMessage) :
    (normalizeMessage now raw).id = raw.id
    ∧ (∀ s, raw.proofUrl = some s → s ≠ "" →
        (normalizeMessage now raw).proofUrl = some s)
    ∧ (raw.proofUrl = none →
        (normalizeMessage now raw).proofUrl = raw.fileUrl)
    ∧ (∀ s, raw.senderName = some s → s ≠ "" →
        (normalizeMessage now raw).senderName = s)
    ∧ (raw.senderName = none → ∀ s, raw.senderNestedName = some s → s ≠ "" →
        (normalizeMessage now raw).senderName = s)
    ∧ (raw.senderName = none → raw.senderNestedName = none →
        (normalizeMessage now raw).senderName = "Unknown")
    ∧ (raw.createdAt = none → (normalizeMessage now raw).createdAt = now)
    ∧ (∀ t, raw.createdAt = some t →
        (normalizeMessage now raw).createdAt = t) := by
  refine ⟨rfl, ?_, ?_, ?_, ?_, ?_, ?_, ?_⟩
  · intro s hp hs
    simp [normalizeMessage, jsOrOpt, hp, hs]
  · intro hp
    cases hf : raw.fileUrl <;> simp [normalizeMessage, jsOrOpt, hp, hf]
  · intro s hn hs
    simp [normalizeMessage, jsOrOpt, jsOrStr, hn, hs]
  · intro hn s hm hs
    simp [normalizeMessage, jsOrOpt, jsOrStr, hn, hm, hs]
  · intro hn hm
    simp [normalizeMessage, jsOrOpt, jsOrStr, hn, hm]
  · intro hc
    simp [normalizeMessage, hc]
  · intro t hc
    simp [normalizeMessage, hc]

/-- Witness for C9: a record carrying senderName Alice, a proofUrl, and a
timestamp keeps all three; a record with only a nested sender name, only a
fileUrl and no timestamp falls back on all three. -/
theorem normalize_contract_witness :
    (normalizeMessage 7
      { id := "h1", senderName := some "Alice", senderNestedName := none,
        text := some "hi", proofUrl := some "purl", fileUrl := some "furl",
        createdAt := some 3 }).proofUrl = some "purl"
    ∧ (normalizeMessage 7
      { id := "h1", senderName := some "Alice", senderNestedName := none,
        text := some "hi", proofUrl := some "purl", fileUrl := some "furl",
        createdAt := some 3 }).senderName = "Alice"
    ∧ (normalizeMessage 7
      { id := "h1", senderName := some "Alice", senderNestedName := none,
        text := some "hi", proofUrl := some "purl", fileUrl := some "furl",
        createdAt := some 3 }).createdAt = 3
    ∧ (normalizeMessage 7
      { id := "h2", senderName := none, senderNestedName := some "Ann",
        text := none, proofUrl := none, fileUrl := some "furl",
        createdAt := none }).proofUrl = some "furl"
    ∧ (normalizeMessage 7
      { id := "h2", senderName := none, senderNestedName := some "Ann",
        text := none, proofUrl := none, fileUrl := some "furl",
        createdAt := none }).senderName = "Ann"
    ∧ (normalizeMessage 7
      { id := "h2", senderName := none, senderNestedName := some "Ann",
        text := none, proofUrl := none, fileUrl := some "furl",
        createdAt := none }).createdAt = 7 := by
  have h1 := normalize_contract 7
    { id := "h1", senderName := some "Alice", senderNestedName := none,
      text := some "hi", proofUrl := some "purl", fileUrl := some "furl",
      createdAt := some 3 }
  have h2 := normalize_contract 7
    { id := "h2", senderName := none, senderNestedName := some "Ann",
      text := none, proofUrl := none, fileUrl := some "furl",
      createdAt := none }
  refine ⟨h1.2.1 "purl" rfl (by decide), h1.2.2.2.1 "Alice" rfl (by decide),
    h1.2.2.2.2.2.2.2 3 rfl, h2.2.2.1 rfl,
    h2.2.2.2.2.1 rfl "Ann" rfl (by decide), h2.2.2.2.2.2.2.1 rfl⟩

end BillSplitter
